import Mathlib

/-!
A verification development for the pdm-sbom core: the component resolver
(`src/pdm_sbom/project/builder.py`), the shared data model
(`src/pdm_sbom/project/dataclasses.py`), and the dependency graph layer
(`src/pdm_sbom/dag/graph.py`, `src/pdm_sbom/dag/builder.py`).

The Python object graph produced by the resolver is memoized per package
name (`ComponentBuilder._components : dict[str, ComponentInfo]`), so in the
graph-layer model components are identified by their name and the resolved
object graph is represented by a name-indexed store.  Recursive Python
functions are embedded with an explicit recursion-depth fuel parameter:
exhausting the fuel models a recursion that exceeds any finite depth
(Python raises `RecursionError`).
-/

namespace PdmSbom

/-- The `UsageKind` enum from `dag/graph.py`: an `IntEnum` with the numeric values
UNUSED = 0, DEVELOPMENT = 1, OPTIONAL = 2, REQUIRED = 4, ROOT = 8. -/
inductive UsageKind where
  | unused
  | development
  | optionalDep
  | required
  | root
deriving DecidableEq, Repr

/-- Numeric value of a `UsageKind`, as in the Python `IntEnum`. -/
def UsageKind.toVal : UsageKind → Nat
  | .unused => 0
  | .development => 1
  | .optionalDep => 2
  | .required => 4
  | .root => 8

/-- Maximum of two usage kinds under the numeric ordering. -/
def UsageKind.max (a b : UsageKind) : UsageKind :=
  if a.toVal < b.toVal then b else a

/-- The `ComponentNode.usage` setter from `dag/graph.py`: overwrite the current
paint only when the new kind's numeric value strictly exceeds it. -/
def ComponentNode.setUsage (current paint : UsageKind) : UsageKind :=
  if current.toVal < paint.toVal then paint else current

/-- The `RootNode.usage` getter from `dag/graph.py`: always `ROOT`. -/
def RootNode.usage : UsageKind := .root

/-- A graph node record: `ComponentNode` carries the component (by name) and
the dependency group under which it was first encountered; the `RootNode`
(`isRoot = true`) wraps the project. -/
structure NodeRec where
  name : String
  group : Option String
  isRoot : Bool
deriving DecidableEq, Repr

/-- The `Graph` container from `dag/graph.py`: a node list (insertion order,
root first) and a per-source adjacency with set semantics. -/
structure Graph where
  nodes : List NodeRec
  edges : List (String × List String)
  rootName : String
deriving DecidableEq, Repr

/-- Python `Graph.__init__`: the node list starts with the root node and the edge
mapping starts with an empty edge set for the root. -/
def Graph.init (root : String) : Graph :=
  { nodes := [⟨root, none, true⟩], edges := [(root, [])], rootName := root }

/-- Membership of a component (by name) in the graph's node list. -/
def Graph.hasNode (g : Graph) (n : String) : Bool :=
  g.nodes.any (fun r => r.name = n)

/-- Python `Graph.add_node`: append, with no uniqueness enforcement. -/
def Graph.addNode (g : Graph) (r : NodeRec) : Graph :=
  { g with nodes := g.nodes ++ [r] }

/-- Insert `b` into `a`'s edge set: create the entry when absent, and add the
target only if it is not already present (Python `set.add`). -/
def insertEdge : List (String × List String) → String → String → List (String × List String)
  | [], a, b => [(a, [b])]
  | (x, ts) :: rest, a, b =>
    if x = a then (x, if b ∈ ts then ts else ts ++ [b]) :: rest
    else (x, ts) :: insertEdge rest a b

/-- Python `Graph.add_edge`: raise `ValueError("Invalid node: ...")` when either
endpoint was never added to the node list, otherwise insert the target into
the source's edge set. -/
def Graph.addEdge (g : Graph) (a b : String) : Except String Graph :=
  if ¬ g.hasNode a then .error ("Invalid node: " ++ a)
  else if ¬ g.hasNode b then .error ("Invalid node: " ++ b)
  else .ok { g with edges := insertEdge g.edges a b }

/-- The resolved component object graph, indexed by component name: for each
name, the `ComponentInfo.dependencies` mapping as an ordered association of
group name to the ordered list of that group's dependencies, each dependency
given by its optional resolved component reference (`DependencyInfo.component`,
`none` when unresolved). -/
structure Store where
  deps : String → List (String × List (Option String))

/-- Python `ComponentInfo.all_dependencies`: flatten the group mapping into
`(group, dependency)` pairs, group by group in mapping order. -/
def Store.allDeps (s : Store) (c : String) : List (String × Option String) :=
  ((s.deps c).map (fun g => g.2.map (fun d => (g.1, d)))).flatten

/-- Python `ProjectInfo.get_dependencies` / `dependencies.get(name, [])`: the
dependency list of one group, empty when the group is absent. -/
def Store.groupDeps (s : Store) (c : String) (grp : String) : List (Option String) :=
  match (s.deps c).find? (fun g => g.1 = grp) with
  | some g => g.2
  | none => []

/-- Python `ProjectInfo.default_dependencies`. -/
def Store.defaultDeps (s : Store) (c : String) : List (Option String) :=
  s.groupDeps c "default"

/-- Python `ProjectInfo.development_dependencies`. -/
def Store.developmentDeps (s : Store) (c : String) : List (Option String) :=
  s.groupDeps c "development"

/-- Python `ProjectInfo.optional_dependencies`: every group other than `default`
and `development`, concatenated in mapping order. -/
def Store.optionalDeps (s : Store) (c : String) : List (Option String) :=
  (((s.deps c).filter (fun g => ¬ (g.1 = "default" ∨ g.1 = "development"))).map
    (fun g => g.2)).flatten

/-- Failure of a graph-build run: `fuel` models a recursion that exceeds
every finite recursion depth (Python `RecursionError`); `invalidNode` models
a `ValueError` escaping from `Graph.add_edge`. -/
inductive BuildErr where
  | fuel
  | invalidNode (msg : String)
deriving DecidableEq, Repr

/-- The body of the `for new_group, dependency in component.all_dependencies()`
loop of `GraphBuilder.__build_graph_nodes`: skip dependencies with no resolved
component, recurse (via `buildRec`) into resolved ones, then add the edge. -/
def buildDeps
    (buildRec : String → Option String → List String → Graph →
      Except BuildErr (List String × Graph))
    (c : String) :
    List (String × Option String) → List String → Graph →
      Except BuildErr (List String × Graph)
  | [], v, g => .ok (v, g)
  | (_, none) :: rest, v, g => buildDeps buildRec c rest v g
  | (grp, some d) :: rest, v, g =>
    match buildRec d (some grp) v g with
    | .error e => .error e
    | .ok (v', g') =>
      match g'.addEdge c d with
      | .error m => .error (.invalidNode m)
      | .ok g'' => buildDeps buildRec c rest v' g''

/-- Python `GraphBuilder.__build_graph_nodes`: register the component as a new node
when it is not yet in the visited map, then iterate over all of its
dependencies, recursing into each resolved dependency before adding the edge.
The visited map guards only node creation; the dependency loop always runs. -/
def buildNodes (s : Store) :
    Nat → String → Option String → List String → Graph →
      Except BuildErr (List String × Graph)
  | 0, _, _, _, _ => .error .fuel
  | n + 1, c, grp, v, g =>
    let vg := if c ∈ v then (v, g) else (v ++ [c], g.addNode ⟨c, grp, false⟩)
    buildDeps (buildNodes s n) c (s.allDeps c) vg.1 vg.2

/-- Write semantics of `component_to_nodes[component].usage = color`: the node
for the project's own name is the `RootNode`, whose setter is a no-op; any
other node is a `ComponentNode`, whose setter only increases the value. -/
def writeUsage (root c : String) (color : UsageKind) (u : String → UsageKind) :
    String → UsageKind :=
  if c = root then u
  else fun x => if x = c then ComponentNode.setUsage (u c) color else u x

/-- The loop over `component.all_dependencies()` inside
`GraphBuilder.__paint_all`: paint every transitive dependency in order. -/
def paintDeps
    (paintRec : Option String → (String → UsageKind) →
      Except BuildErr (String → UsageKind)) :
    List (Option String) → (String → UsageKind) →
      Except BuildErr (String → UsageKind)
  | [], u => .ok u
  | d :: rest, u =>
    match paintRec d u with
    | .error e => .error e
    | .ok u' => paintDeps paintRec rest u'

/-- Python `GraphBuilder.__paint_all`: when the dependency's component reference is
present and the component is in the visited-node map, write the color to its
node and recurse into all of its dependencies; otherwise do nothing. -/
def paintAll (s : Store) (root : String) (visited : List String)
    (color : UsageKind) :
    Nat → Option String → (String → UsageKind) →
      Except BuildErr (String → UsageKind)
  | 0, _, _ => .error .fuel
  | n + 1, dep, u =>
    match dep with
    | none => .ok u
    | some c =>
      if c ∈ visited then
        paintDeps (paintAll s root visited color n)
          ((s.allDeps c).map (fun p => p.2)) (writeUsage root c color u)
      else .ok u

/-- Whether the paint traversal of `paintAll` with the given fuel, started at
`dep`, writes to the node of component `x`. -/
def reachAll (s : Store) (visited : List String) :
    Nat → Option String → String → Bool
  | 0, _, _ => false
  | n + 1, dep, x =>
    match dep with
    | none => false
    | some c =>
      if c ∈ visited then
        (x = c) || ((s.allDeps c).map (fun p => p.2)).any
          (fun d => reachAll s visited n d x)
      else false

/-- Python `GraphBuilder.__colorize_graph`: paint every development dependency with
DEVELOPMENT, then every optional dependency with OPTIONAL, then every default
dependency with REQUIRED.  Each top-level paint starts with the full fuel. -/
def colorizeGraph (s : Store) (root : String) (visited : List String)
    (fuel : Nat) (u : String → UsageKind) :
    Except BuildErr (String → UsageKind) :=
  match paintDeps (paintAll s root visited .development fuel)
      (s.developmentDeps root) u with
  | .error e => .error e
  | .ok u' =>
    match paintDeps (paintAll s root visited .optionalDep fuel)
        (s.optionalDeps root) u' with
    | .error e => .error e
    | .ok u'' =>
      paintDeps (paintAll s root visited .required fuel)
        (s.defaultDeps root) u''

/-- Initial usage assignment: the root node holds ROOT from construction,
every `ComponentNode` starts at UNUSED. -/
def initUsage (root : String) : String → UsageKind :=
  fun x => if x = root then .root else .unused

/-- Python `GraphBuilder.build`: seed the visited map with the project's root node,
build the graph nodes and edges, then colorize.  Returns the graph together
with the final per-component usage assignment. -/
def buildGraph (s : Store) (root : String) (fuel : Nat) :
    Except BuildErr (Graph × (String → UsageKind)) :=
  match buildNodes s fuel root none [root] (Graph.init root) with
  | .error e => .error e
  | .ok (v, g) =>
    match colorizeGraph s root v fuel (initUsage root) with
    | .error e => .error e
    | .ok u => .ok (g, u)

/-- Proposition that `GraphBuilder.build` terminates on the given project: some finite
recursion depth suffices to complete the build. -/
def buildTerminates (s : Store) (root : String) : Prop :=
  ∃ n, buildGraph s root n ≠ .error .fuel


/-! ## The shared data model (`project/dataclasses.py`) -/

/-- The `ReferencedFile` dataclass: a build artifact reference with its
`"<algorithm>:<hex-digest>"` hash string. -/
structure ReferencedFile where
  file : String
  hash : String
deriving DecidableEq, Repr

/-- Author records produced by `AuthorResolver.resolve`: one per repeated
`Author` metadata field (`AuthorByDescription`) and one per repeated
`Author-email` field (`AuthorByEmail`), each carrying the raw field text. -/
inductive AuthorInfo where
  | byDescription (name : String)
  | byEmail (name : String)
deriving DecidableEq, Repr

/-- The `LicenseInfo` dataclass and its `NoLicense` subclass ("no license declared for
package X"). -/
inductive LicenseInfo where
  | base
  | noLicense (packageName : String)
deriving DecidableEq, Repr

/-- The `packaging` `Version` is opaque to this core; it is modelled by its
string.  `UNDEFINED_VERSION = Version("0.0.0")`. -/
def UNDEFINED_VERSION : String := "0.0.0"

/-- A `packaging` `Requirement` as used by the resolver: only its `name` is
consulted; the constraint is opaque. -/
structure RawDep where
  name : String
deriving DecidableEq, Repr

mutual
/-- The `ComponentInfo` dataclass from `project/dataclasses.py`: a frozen dataclass whose
generated `__eq__` compares the tuple of all eight fields, while its
generated `__hash__` uses only the fields declared with `hash=True`
(`name` and `resolved`). -/
inductive ComponentInfo where
  | mk (name : String) (resolvedVersion : String) (license : LicenseInfo)
      (authors : List AuthorInfo)
      (dependencies : List (String × List DependencyInfo))
      (files : List ReferencedFile) (resolved : Bool) (homepage : Option String)

/-- The `DependencyInfo` dataclass: a requirement paired with an optional resolved
component reference. -/
inductive DependencyInfo where
  | mk (requirement : RawDep) (component : Option ComponentInfo)
end

def ComponentInfo.name : ComponentInfo → String
  | .mk n _ _ _ _ _ _ _ => n

def ComponentInfo.resolvedVersion : ComponentInfo → String
  | .mk _ v _ _ _ _ _ _ => v

def ComponentInfo.license : ComponentInfo → LicenseInfo
  | .mk _ _ l _ _ _ _ _ => l

def ComponentInfo.authors : ComponentInfo → List AuthorInfo
  | .mk _ _ _ a _ _ _ _ => a

def ComponentInfo.dependencies : ComponentInfo → List (String × List DependencyInfo)
  | .mk _ _ _ _ d _ _ _ => d

def ComponentInfo.files : ComponentInfo → List ReferencedFile
  | .mk _ _ _ _ _ f _ _ => f

def ComponentInfo.resolved : ComponentInfo → Bool
  | .mk _ _ _ _ _ _ r _ => r

def ComponentInfo.homepage : ComponentInfo → Option String
  | .mk _ _ _ _ _ _ _ h => h

/-- The tuple hashed by the generated `__hash__` of `ComponentInfo`: exactly
the fields declared with `field(hash=True)`, namely `name` and `resolved`.
Two values hash equal precisely when their key tuples are equal. -/
def ComponentInfo.hashKey (c : ComponentInfo) : String × Bool :=
  (c.name, c.resolved)

/-! ## The component resolver (`project/builder.py`) -/

/-- The `ReferencedComponent` dataclass: one raw lock record. -/
structure RawRecord where
  name : String
  version : String
  requiredPython : String
  summary : String
  dependencies : List RawDep
  extras : List String
  files : List ReferencedFile
deriving DecidableEq, Repr

/-- The `LockFile` dataclass. -/
structure LockFile where
  groups : List String
  packages : List RawRecord
deriving DecidableEq, Repr

/-- The installed-package metadata consulted by the resolvers: repeated
`Author` and `Author-email` fields, the `Classifier` field set, the
`License` field and the package `Name`. -/
structure PackageMetadata where
  name : String
  authors : List String
  authorEmails : List String
  classifiers : List String
  license : Option String
deriving DecidableEq, Repr

/-- Outcome of `importlib.metadata.metadata(name)` as seen through
`MetaDataResolver.resolve`: metadata found, package not installed
(`PackageNotFoundError`), or a malformed package name (`ValueError`). -/
inductive MetaResult where
  | found (m : PackageMetadata)
  | notFound
  | invalidName
deriving DecidableEq, Repr

/-- Python `AuthorResolver.resolve`: one author per repeated `Author` field, then
one per repeated `Author-email` field. -/
def authorResolverResolve (m : PackageMetadata) : List AuthorInfo :=
  m.authors.map AuthorInfo.byDescription ++ m.authorEmails.map AuthorInfo.byEmail

/-- Python `LicenseResolver._resolve_from_classifiers`: unimplemented in the
source (`return None  # TODO`). -/
def licenseFromClassifiers (_ : List String) : Option LicenseInfo := none

/-- Python `LicenseResolver._resolve_from_license`. -/
def licenseFromLicense (licenseId : Option String) (packageName : String) :
    LicenseInfo :=
  match licenseId with
  | none => .noLicense packageName
  | some _ => .base

/-- Python `LicenseResolver.resolve`. -/
def licenseResolverResolve (m : PackageMetadata) : LicenseInfo :=
  match licenseFromClassifiers m.classifiers with
  | some r => r
  | none => licenseFromLicense m.license m.name

/-- Python `unresolved_component`: the placeholder for a package whose installed
metadata could not be found. -/
def unresolvedComponent (name : String) (files : List ReferencedFile) :
    ComponentInfo :=
  .mk name UNDEFINED_VERSION .base [] [] files false none

/-- The two recoverable warnings logged by `ComponentBuilder._resolve`:
`"Circular dependency detected. Ignoring %s"` and
`"Failed to resolve package %s, as it is not installed. ..."`. -/
inductive Warning where
  | circularDependency (name : String)
  | unresolvedPackage (name : String)
deriving DecidableEq, Repr

/-- The `DependencyTreeError` failure (or, under `.fuel`, a recursion that exceeds every
finite depth). -/
inductive ResolveErr where
  | fuel
  | depTree (message : String)
deriving DecidableEq, Repr

/-- The mutable state of a `ComponentBuilder`: the name-keyed memo map
`_components` (insertion-ordered) and the warnings logged so far. -/
structure ResolverState where
  components : List (String × ComponentInfo)
  warnings : List Warning

/-- Lookup in the memo map. -/
def lookupMemo (m : List (String × ComponentInfo)) (n : String) :
    Option ComponentInfo :=
  (m.find? (fun p => p.1 = n)).map (fun p => p.2)

/-- Lookup in the raw package map. -/
def lookupPackage (m : List (String × RawRecord)) (n : String) :
    Option RawRecord :=
  (m.find? (fun p => p.1 = n)).map (fun p => p.2)

/-- The `for dependency in reference.dependencies` loop of
`ComponentBuilder._resolve`: skip a self-referential dependency (warning
only when `len(reference.dependencies) == 0`), fail on a dependency absent
from the package map with the message built from `package_name` and
`dependency.name` (both the dependency's name), otherwise resolve the
dependency recursively (via `resolveRec`) and append it. -/
def resolveDeps
    (resolveRec : RawRecord → ResolverState →
      Except ResolveErr (ComponentInfo × ResolverState))
    (pm : List (String × RawRecord)) (reference : RawRecord) :
    List RawDep → ResolverState →
      Except ResolveErr (List DependencyInfo × ResolverState)
  | [], st => .ok ([], st)
  | dep :: rest, st =>
    if dep.name = reference.name then
      let st' :=
        if reference.dependencies.length = 0 then
          { st with warnings := st.warnings ++ [.circularDependency dep.name] }
        else st
      resolveDeps resolveRec pm reference rest st'
    else
      match lookupPackage pm dep.name with
      | none =>
        .error (.depTree ("Could not find package " ++ dep.name ++
          " derived from " ++ dep.name ++ " in package map."))
      | some pkg =>
        match resolveRec pkg st with
        | .error e => .error e
        | .ok (component, st') =>
          match resolveDeps resolveRec pm reference rest st' with
          | .error e => .error e
          | .ok (ds, st'') => .ok (.mk dep (some component) :: ds, st'')

/-- Python `ComponentBuilder._resolve`: return the memoized component when present;
otherwise resolve all declared dependencies depth-first, group them under
`DEFAULT_GROUP_NAME`, look up the installed metadata (found → fully resolved
component; not found → unresolved placeholder plus a warning; malformed name
→ `DependencyTreeError`), memoize and return. -/
def resolveComponent (oracle : String → MetaResult)
    (pm : List (String × RawRecord)) :
    Nat → RawRecord → ResolverState →
      Except ResolveErr (ComponentInfo × ResolverState)
  | 0, _, _ => .error .fuel
  | fuel + 1, reference, st =>
    match lookupMemo st.components reference.name with
    | some c => .ok (c, st)
    | none =>
      match resolveDeps (resolveComponent oracle pm fuel) pm reference
          reference.dependencies st with
      | .error e => .error e
      | .ok (ds, st') =>
        match oracle reference.name with
        | .invalidName =>
          .error (.depTree ("Invalid package name: " ++ reference.name))
        | .found meta =>
          let result : ComponentInfo :=
            .mk reference.name reference.version (licenseResolverResolve meta)
              (authorResolverResolve meta) [("default", ds)] reference.files
              true none
          .ok (result,
            { components := st'.components ++ [(reference.name, result)],
              warnings := st'.warnings })
        | .notFound =>
          let result := unresolvedComponent reference.name reference.files
          .ok (result,
            { components := st'.components ++ [(reference.name, result)],
              warnings := st'.warnings ++ [.unresolvedPackage reference.name] })

/-- The dict comprehension `{m.name: m for m in lock_file.packages}`: keys
keep their first-insertion position, a duplicate name overwrites the value. -/
def insertOrReplace : List (String × RawRecord) → String → RawRecord →
    List (String × RawRecord)
  | [], k, v => [(k, v)]
  | (k2, v2) :: rest, k, v =>
    if k2 = k then (k2, v) :: rest else (k2, v2) :: insertOrReplace rest k v

def buildPackageMap (packages : List RawRecord) : List (String × RawRecord) :=
  packages.foldl (fun m p => insertOrReplace m p.name p) []

/-- Python `ComponentBuilder.add_from_lock_file`: resolve every package of the lock
file in map order, skipping names already memoized; a `DependencyTreeError`
aborts the whole run. -/
def addFromLockFile (oracle : String → MetaResult) (fuel : Nat)
    (lock : LockFile) (st : ResolverState) : Except ResolveErr ResolverState :=
  let pm := buildPackageMap lock.packages
  (pm.map (fun p => p.2)).foldl
    (fun acc reference =>
      match acc with
      | .error e => .error e
      | .ok st' =>
        if (lookupMemo st'.components reference.name).isSome then .ok st'
        else
          match resolveComponent oracle pm fuel reference st' with
          | .error e => .error e
          | .ok (_, st'') => .ok st'')
    (.ok st)

/-! ## `ProjectBuilder.build` artifact files -/

/-- The filesystem collaborators of `ProjectBuilder.build`: `Path.is_file`,
the SHA-256 hex digest of a file's bytes (`hashlib.file_digest(...).hexdigest()`)
and `Path.name`. -/
structure PathOracle where
  isFile : String → Bool
  digestHex : String → String
  baseName : String → String

/-- The local `hash_file` helper of `ProjectBuilder.build`:
`f"{algo_name}:{digest.hexdigest()}"` with `algo_name = "sha256"`. -/
def hashFile (o : PathOracle) (p : String) : String :=
  "sha256:" ++ o.digestHex p

/-- The `files=[ReferencedFile(file=f.name, hash=hash_file(f)) for f in files
if f.is_file()]` comprehension of `ProjectBuilder.build`. -/
def projectBuildFiles (o : PathOracle) (files : List String) :
    List ReferencedFile :=
  (files.filter o.isFile).map (fun f => ReferencedFile.mk (o.baseName f) (hashFile o f))


/-! ## Helper lemmas -/

theorem UsageKind.max_idem (a c : UsageKind) : (a.max c).max c = a.max c := by
  cases a <;> cases c <;> rfl

theorem UsageKind.root_max (c : UsageKind) : UsageKind.max .root c = .root := by
  cases c <;> rfl

theorem insertEdge_idem (e : List (String × List String)) (a b : String) :
    insertEdge (insertEdge e a b) a b = insertEdge e a b := by
  induction e with
  | nil => simp [insertEdge]
  | cons hd rest ih =>
    obtain ⟨x, ts⟩ := hd
    by_cases hx : x = a
    · subst hx
      by_cases hb : b ∈ ts <;> simp [insertEdge, hb]
    · simp [insertEdge, hx, ih]

/-- C7: per node, usage only moves forward along the numeric UsageKind
ordering: a write with a kind not strictly greater than the current value is
a no-op, the value never decreases, the result of a write is either the old
value or the written kind, a `ComponentNode` write with a classifier kind
never produces ROOT, the `RootNode` usage getter is constantly ROOT, and
writing any kind to the root component's node leaves the usage assignment
unchanged. -/
theorem componentNode_usage_forward (cur k : UsageKind) :
    (¬ cur.toVal < k.toVal → ComponentNode.setUsage cur k = cur)
    ∧ cur.toVal ≤ (ComponentNode.setUsage cur k).toVal
    ∧ (ComponentNode.setUsage cur k = cur ∨ ComponentNode.setUsage cur k = k)
    ∧ (cur ≠ .root → k ≠ .root → ComponentNode.setUsage cur k ≠ .root)
    ∧ RootNode.usage = .root
    ∧ (∀ (root : String) (color : UsageKind) (u : String → UsageKind),
        writeUsage root root color u = u) := by
  refine ⟨?_, ?_, ?_, ?_, rfl, ?_⟩
  · cases cur <;> cases k <;> decide
  · cases cur <;> cases k <;> decide
  · cases cur <;> cases k <;> decide
  · cases cur <;> cases k <;> decide
  · intro root color u
    simp [writeUsage]

theorem componentNode_usage_forward_witness :
    ComponentNode.setUsage .required .optionalDep = .required :=
  (componentNode_usage_forward .required .optionalDep).1 (by decide)

/-- C8: `Graph.add_edge` fails with an unknown-node error exactly when one of
the endpoints is not in the node list; on success it inserts the target into
the source's edge set with set semantics, so repeating the same insertion
leaves the graph unchanged. -/
theorem graph_addEdge_spec (g : Graph) (a b : String) :
    ((∃ e, g.addEdge a b = .error e) ↔
      (g.hasNode a = false ∨ g.hasNode b = false))
    ∧ (∀ g', g.addEdge a b = .ok g' → g'.addEdge a b = .ok g') := by
  constructor
  · by_cases ha : g.hasNode a
    · by_cases hb : g.hasNode b
      · simp [Graph.addEdge, ha, hb]
      · simp [Graph.addEdge, ha, hb]
    · simp [Graph.addEdge, ha]
  · intro g' hok
    have ha : g.hasNode a = true := by
      by_contra h
      simp [Graph.addEdge, h] at hok
    have hb : g.hasNode b = true := by
      by_contra h
      simp [Graph.addEdge, ha, h] at hok
    simp only [Graph.addEdge, ha, hb] at hok ⊢
    simp at hok
    subst hok
    have hnodes : Graph.hasNode { g with edges := insertEdge g.edges a b } =
        Graph.hasNode g := by
      funext n; rfl
    simp [hnodes, ha, hb, insertEdge_idem]

theorem graph_addEdge_spec_witness :
    Graph.addEdge ⟨[⟨"p", none, true⟩, ⟨"a", some "default", false⟩], [("p", ["a"])], "p"⟩ "p" "a" =
      .ok ⟨[⟨"p", none, true⟩, ⟨"a", some "default", false⟩], [("p", ["a"])], "p"⟩ :=
  (graph_addEdge_spec ⟨[⟨"p", none, true⟩, ⟨"a", some "default", false⟩], [("p", [])], "p"⟩
    "p" "a").2 _ rfl


/-! ## C1: multi-hop dependency cycles -/

/-- A project `p` with one default dependency `a`, where `a` and `b` form the
two-hop cycle `a → b → a` (all references resolved). -/
def cyc2Store : Store :=
  ⟨fun c =>
    if c = "p" then [("default", [some "a"])]
    else if c = "a" then [("default", [some "b"])]
    else if c = "b" then [("default", [some "a"])]
    else []⟩

theorem cyc2_buildNodes_stuck (n : Nat) :
    (∀ grp v g, buildNodes cyc2Store n "a" grp v g = .error .fuel)
    ∧ (∀ grp v g, buildNodes cyc2Store n "b" grp v g = .error .fuel) := by
  induction n with
  | zero => exact ⟨fun _ _ _ => rfl, fun _ _ _ => rfl⟩
  | succ n ih =>
    have hda : cyc2Store.allDeps "a" = [("default", some "b")] := rfl
    have hdb : cyc2Store.allDeps "b" = [("default", some "a")] := rfl
    constructor
    · intro grp v g
      rw [buildNodes, hda, buildDeps, ih.2]
    · intro grp v g
      rw [buildNodes, hdb, buildDeps, ih.1]

theorem cyc2_buildGraph_stuck (n : Nat) :
    buildGraph cyc2Store "p" n = .error .fuel := by
  cases n with
  | zero => rfl
  | succ n =>
    have hdp : cyc2Store.allDeps "p" = [("default", some "a")] := rfl
    rw [buildGraph, buildNodes, hdp, buildDeps, (cyc2_buildNodes_stuck n).1]


/-- C1 (counterexample): on the two-hop cycle `a → b → a`, `GraphBuilder.build`
does not terminate: no finite recursion depth completes the build, because
`__build_graph_nodes` consults the visited map only before creating a node,
not before recursing into dependencies. -/
theorem graphBuilder_cycle_not_terminating : ¬ buildTerminates cyc2Store "p" :=
  fun h => h.elim (fun n hn => hn (cyc2_buildGraph_stuck n))

/-- C1 (amended): for a Project whose resolved component graph contains a
reachable multi-hop dependency cycle (here `a → b → a`), `GraphBuilder.build`
exhausts every finite recursion depth instead of terminating. -/
theorem graphBuilder_cycle_diverges :
    ∀ n, buildGraph cyc2Store "p" n = .error .fuel :=
  cyc2_buildGraph_stuck

/-! ## C2: usage classification as a monotone maximum -/

theorem writeUsage_at (root c : String) (color : UsageKind)
    (u : String → UsageKind) (x : String) :
    writeUsage root c color u x =
      if x = c ∧ c ≠ root then (u x).max color else u x := by
  by_cases hc : c = root
  · subst hc
    simp [writeUsage]
  · by_cases hx : x = c
    · subst hx
      simp [writeUsage, hc, ComponentNode.setUsage, UsageKind.max]
    · simp [writeUsage, hc, hx]

theorem paintDeps_char (root : String) (color : UsageKind)
    (f : Option String → (String → UsageKind) → Except BuildErr (String → UsageKind))
    (R : Option String → String → Bool)
    (hf : ∀ d u u', f d u = .ok u' →
      ∀ x, u' x = if R d x ∧ x ≠ root then (u x).max color else u x) :
    ∀ (l : List (Option String)) (u u' : String → UsageKind),
      paintDeps f l u = .ok u' →
      ∀ x, u' x =
        if l.any (fun d => R d x) ∧ x ≠ root then (u x).max color else u x := by
  intro l
  induction l with
  | nil =>
    intro u u' h x
    simp only [paintDeps] at h
    cases h
    simp
  | cons d rest ih =>
    intro u u' h x
    rw [paintDeps] at h
    cases hfd : f d u with
    | error e => rw [hfd] at h; cases h
    | ok u1 =>
      rw [hfd] at h
      have h1 := hf d u u1 hfd x
      have h2 := ih u1 u' h x
      rw [h2, h1]
      by_cases hx : x = root
      · simp [hx]
      · by_cases hd : R d x = true
        · by_cases hr : rest.any (fun d => R d x) = true
          · simp [hx, hd, hr, UsageKind.max_idem]
          · simp [hx, hd, hr]
        · by_cases hr : rest.any (fun d => R d x) = true
          · simp [hx, hd, hr]
          · simp [hx, hd, hr]

theorem paintAll_char (s : Store) (root : String) (visited : List String)
    (color : UsageKind) :
    ∀ (n : Nat) (d : Option String) (u u' : String → UsageKind),
      paintAll s root visited color n d u = .ok u' →
      ∀ x, u' x =
        if reachAll s visited n d x ∧ x ≠ root then (u x).max color else u x := by
  intro n
  induction n with
  | zero =>
    intro d u u' h
    cases h
  | succ n ih =>
    intro d u u' h x
    cases d with
    | none =>
      rw [paintAll] at h
      cases h
      simp [reachAll]
    | some c =>
      by_cases hc : c ∈ visited
      · rw [paintAll] at h
        simp only [hc, if_pos] at h
        have hstep := paintDeps_char root color (paintAll s root visited color n)
          (reachAll s visited n) ih _ _ _ h x
        rw [hstep, writeUsage_at]
        rw [reachAll]
        simp only [hc, if_pos]
        by_cases hx : x = root
        · simp [hx]
          intro h1 h2
          exact absurd h1.symm h2
        · by_cases hxc : x = c
          · subst hxc
            have hcr : ¬ x = root := hx
            by_cases hr : ((s.allDeps x).map (fun p => p.2)).any
                (fun d => reachAll s visited n d x) = true
            · simp [hx, hr, UsageKind.max_idem]
            · simp [hx, hr]
          · by_cases hr : ((s.allDeps c).map (fun p => p.2)).any
                (fun d => reachAll s visited n d x) = true
            · simp [hx, hxc, hr]
            · simp [hx, hxc, hr]
      · rw [paintAll] at h
        simp only [hc, if_neg, not_false_iff] at h
        cases h
        rw [reachAll]
        simp [hc]


theorem foldPass_reach (s : Store) (v : List String) (fuel : Nat) (x : String)
    (c : UsageKind) :
    ∀ (l : List (Option String)) (a : UsageKind),
      List.foldl (fun a p => if reachAll s v fuel p.1 x then a.max p.2 else a) a
          (l.map (fun d => (d, c))) =
        if l.any (fun d => reachAll s v fuel d x) then a.max c else a := by
  intro l
  induction l with
  | nil => intro a; simp
  | cons d rest ih =>
    intro a
    by_cases hd : reachAll s v fuel d x = true
    · by_cases hr : rest.any (fun d => reachAll s v fuel d x) = true
      · simp [hd, hr, ih, UsageKind.max_idem]
      · simp [hd, hr, ih]
    · by_cases hr : rest.any (fun d => reachAll s v fuel d x) = true
      · simp [hd, hr, ih]
      · simp [hd, hr, ih]

/-- The three classification passes of `GraphBuilder.__colorize_graph`, in
execution order: every development dependency with DEVELOPMENT, then every
optional dependency with OPTIONAL, then every default dependency with
REQUIRED. -/
def passList (s : Store) (root : String) : List (Option String × UsageKind) :=
  (s.developmentDeps root).map (fun d => (d, UsageKind.development)) ++
    ((s.optionalDeps root).map (fun d => (d, UsageKind.optionalDep)) ++
      (s.defaultDeps root).map (fun d => (d, UsageKind.required)))

/-- The maximum, under the UsageKind ordering, of a node's initial usage and
the colors of all classification passes whose paint traversal reaches it. -/
def passMax (s : Store) (visited : List String) (fuel : Nat) (root : String)
    (u0 : String → UsageKind) (x : String) : UsageKind :=
  (passList s root).foldl
    (fun a p => if reachAll s visited fuel p.1 x then a.max p.2 else a) (u0 x)

/-- C2: every node of the graph produced by `GraphBuilder.build` ends with
usage equal to the maximum, under the UsageKind ordering, of its initial
usage and the colors of all classification passes (development, then
optional, then default/required) whose paint traversal reached it; in
particular a non-root node reached both by a development pass and by a
default (required) pass ends with usage REQUIRED, never DEVELOPMENT. -/
theorem build_usage_is_pass_maximum (s : Store) (root : String) (fuel : Nat)
    (g : Graph) (u' : String → UsageKind)
    (h : buildGraph s root fuel = .ok (g, u')) :
    ∃ v, buildNodes s fuel root none [root] (Graph.init root) = .ok (v, g)
      ∧ (∀ x, u' x = passMax s v fuel root (initUsage root) x)
      ∧ (∀ x, x ≠ root →
          (s.developmentDeps root).any (fun d => reachAll s v fuel d x) = true →
          (s.defaultDeps root).any (fun d => reachAll s v fuel d x) = true →
          u' x = .required) := by
  rw [buildGraph] at h
  cases hb : buildNodes s fuel root none [root] (Graph.init root) with
  | error e => rw [hb] at h; cases h
  | ok vg =>
    obtain ⟨v, g0⟩ := vg
    rw [hb] at h
    dsimp only at h
    cases hcol : colorizeGraph s root v fuel (initUsage root) with
    | error e => rw [hcol] at h; cases h
    | ok uc =>
      rw [hcol] at h
      dsimp only at h
      injection h with h
      injection h with hg hu
      subst hg
      subst hu
      refine ⟨v, rfl, ?_⟩
      rw [colorizeGraph] at hcol
      cases h1 : paintDeps (paintAll s root v .development fuel)
          (s.developmentDeps root) (initUsage root) with
      | error e => rw [h1] at hcol; cases hcol
      | ok u1 =>
        rw [h1] at hcol
        dsimp only at hcol
        cases h2 : paintDeps (paintAll s root v .optionalDep fuel)
            (s.optionalDeps root) u1 with
        | error e => rw [h2] at hcol; cases hcol
        | ok u2 =>
          rw [h2] at hcol
          dsimp only at hcol
          have hA := paintDeps_char root .development
            (paintAll s root v .development fuel) (reachAll s v fuel)
            (paintAll_char s root v .development fuel) _ _ _ h1
          have hB := paintDeps_char root .optionalDep
            (paintAll s root v .optionalDep fuel) (reachAll s v fuel)
            (paintAll_char s root v .optionalDep fuel) _ _ _ h2
          have hC := paintDeps_char root .required
            (paintAll s root v .required fuel) (reachAll s v fuel)
            (paintAll_char s root v .required fuel) _ _ _ hcol
          have hmain : ∀ x, uc x = passMax s v fuel root (initUsage root) x := by
            intro x
            rw [passMax, passList, List.foldl_append, List.foldl_append,
              foldPass_reach, foldPass_reach, foldPass_reach]
            by_cases hx : x = root
            · subst hx
              rw [hC, hB, hA]
              simp [initUsage, UsageKind.root_max]
            · rw [hC x, hB x, hA x]
              by_cases b1 : (s.developmentDeps root).any
                  (fun d => reachAll s v fuel d x) = true
              · by_cases b2 : (s.optionalDeps root).any
                    (fun d => reachAll s v fuel d x) = true
                · by_cases b3 : (s.defaultDeps root).any
                      (fun d => reachAll s v fuel d x) = true
                  · simp [b1, b2, b3, hx]
                  · simp [b1, b2, b3, hx]
                · by_cases b3 : (s.defaultDeps root).any
                      (fun d => reachAll s v fuel d x) = true
                  · simp [b1, b2, b3, hx]
                  · simp [b1, b2, b3, hx]
              · by_cases b2 : (s.optionalDeps root).any
                    (fun d => reachAll s v fuel d x) = true
                · by_cases b3 : (s.defaultDeps root).any
                      (fun d => reachAll s v fuel d x) = true
                  · simp [b1, b2, b3, hx]
                  · simp [b1, b2, b3, hx]
                · by_cases b3 : (s.defaultDeps root).any
                      (fun d => reachAll s v fuel d x) = true
                  · simp [b1, b2, b3, hx]
                  · simp [b1, b2, b3, hx]
          refine ⟨hmain, ?_⟩
          intro x hx hdev hreq
          have hinit : initUsage root x = UsageKind.unused := by
            simp [initUsage, hx]
          rw [hC x, if_pos ⟨hreq, hx⟩, hB x]
          by_cases b2 : ((s.optionalDeps root).any
              fun d => reachAll s v fuel d x) = true
          · rw [if_pos ⟨b2, hx⟩, hA x, if_pos ⟨hdev, hx⟩, hinit]
            rfl
          · rw [if_neg (fun hh => b2 hh.1), hA x, if_pos ⟨hdev, hx⟩, hinit]
            rfl


/-- An acyclic example project: `p` has default dependency `a` and
development dependency `b`; both `a` and `b` depend on `c`. -/
def acycStore : Store :=
  ⟨fun c =>
    if c = "p" then [("default", [some "a"]), ("development", [some "b"])]
    else if c = "a" then [("default", [some "c"])]
    else if c = "b" then [("default", [some "c"])]
    else []⟩

/-- Observe the final usage of one component in a build result. -/
def usageOf (r : Except BuildErr (Graph × (String → UsageKind)))
    (x : String) : Option UsageKind :=
  match r with
  | .ok p => some (p.2 x)
  | .error _ => none

theorem build_usage_is_pass_maximum_witness :
    usageOf (buildGraph acycStore "p" 6) "c" = some .required := by
  cases hres : buildGraph acycStore "p" 6 with
  | error e =>
    have hok : (buildGraph acycStore "p" 6).toOption.isSome = true := rfl
    rw [hres] at hok
    cases hok
  | ok p =>
    obtain ⟨g, u⟩ := p
    obtain ⟨v, hv, _, hreq⟩ :=
      build_usage_is_pass_maximum acycStore "p" 6 g u hres
    have hb : buildNodes acycStore 6 "p" none ["p"] (Graph.init "p") =
        .ok (["p", "a", "c", "b"],
          ⟨[⟨"p", none, true⟩, ⟨"a", some "default", false⟩,
              ⟨"c", some "default", false⟩, ⟨"b", some "development", false⟩],
            [("p", ["a", "b"]), ("a", ["c"]), ("b", ["c"])], "p"⟩) := by
      rfl
    rw [hb] at hv
    injection hv with hv
    injection hv with hv1 hv2
    have hu := hreq "c" (by decide) (by rw [← hv1]; decide) (by rw [← hv1]; decide)
    simp [usageOf, hu]


/-! ## C9: unresolved dependencies are skipped -/

/-- The store with every unresolved dependency reference (absent component)
removed from every dependency group. -/
def filterStore (s : Store) : Store :=
  ⟨fun c => (s.deps c).map (fun g => (g.1, g.2.filter (fun d => d.isSome)))⟩

theorem mapPair_filter (grp : String) :
    ∀ (l : List (Option String)),
      (l.filter (fun d => d.isSome)).map (fun d => (grp, d)) =
        (l.map (fun d => (grp, d))).filter (fun p => p.2.isSome) := by
  intro l
  induction l with
  | nil => rfl
  | cons d rest ih =>
    cases d with
    | none => simpa using ih
    | some x => simpa using ih

theorem flattenPairs_filter :
    ∀ (l : List (String × List (Option String))),
      ((l.map (fun g => (g.1, g.2.filter (fun d => d.isSome)))).map
          (fun g => g.2.map (fun d => (g.1, d)))).flatten =
        ((l.map (fun g => g.2.map (fun d => (g.1, d)))).flatten).filter
          (fun p => p.2.isSome) := by
  intro l
  induction l with
  | nil => rfl
  | cons g rest ih =>
    simp only [List.map_cons, List.flatten_cons, List.filter_append]
    rw [ih, mapPair_filter]

theorem allDeps_filterStore (s : Store) (c : String) :
    (filterStore s).allDeps c = (s.allDeps c).filter (fun p => p.2.isSome) :=
  flattenPairs_filter (s.deps c)

theorem buildDeps_congr
    (f₁ f₂ : String → Option String → List String → Graph →
      Except BuildErr (List String × Graph))
    (hf : ∀ d grp v g, f₁ d grp v g = f₂ d grp v g) (c : String) :
    ∀ (l : List (String × Option String)) (v : List String) (g : Graph),
      buildDeps f₁ c l v g = buildDeps f₂ c l v g := by
  intro l
  induction l with
  | nil => intro v g; rfl
  | cons hd rest ih =>
    intro v g
    obtain ⟨grp, od⟩ := hd
    cases od with
    | none => exact ih v g
    | some d =>
      rw [buildDeps, buildDeps, hf]
      cases hfd : f₂ d (some grp) v g with
      | error e => rfl
      | ok vg =>
        obtain ⟨v', g'⟩ := vg
        dsimp only
        cases hge : g'.addEdge c d with
        | error m => rfl
        | ok g'' => exact ih v' g''

theorem buildDeps_skipNone
    (f : String → Option String → List String → Graph →
      Except BuildErr (List String × Graph)) (c : String) :
    ∀ (l : List (String × Option String)) (v : List String) (g : Graph),
      buildDeps f c (l.filter (fun p => p.2.isSome)) v g =
        buildDeps f c l v g := by
  intro l
  induction l with
  | nil => intro v g; rfl
  | cons hd rest ih =>
    intro v g
    obtain ⟨grp, od⟩ := hd
    cases od with
    | none => simpa [List.filter_cons] using ih v g
    | some d =>
      have hfc : List.filter (fun p => p.2.isSome) ((grp, some d) :: rest) =
          (grp, some d) :: List.filter (fun p => p.2.isSome) rest := by
        simp [List.filter_cons]
      rw [hfc, buildDeps, buildDeps]
      cases hfd : f d (some grp) v g with
      | error e => rfl
      | ok vg =>
        obtain ⟨v', g'⟩ := vg
        dsimp only
        cases hge : g'.addEdge c d with
        | error m => rfl
        | ok g'' => exact ih v' g''

theorem buildNodes_filterStore (s : Store) :
    ∀ (n : Nat) (c : String) (grp : Option String) (v : List String) (g : Graph),
      buildNodes (filterStore s) n c grp v g = buildNodes s n c grp v g := by
  intro n
  induction n with
  | zero => intro c grp v g; rfl
  | succ n ih =>
    intro c grp v g
    rw [buildNodes, buildNodes, allDeps_filterStore]
    exact (buildDeps_congr _ _ (fun d grp v g => ih d grp v g) c _ _ _).trans
      (buildDeps_skipNone _ c _ _ _)

/-- C9: a `Dependency` whose resolved component reference is absent is
skipped without failure everywhere: the graph build over a store with all
absent references removed is identical to the build over the original store
(an absent reference contributes no node and no edge), `__paint_all` on an
absent reference is a no-op, and a paint target missing from the
visited-node map is silently skipped by the classifier. -/
theorem unresolved_dependency_skipped (s : Store) (root : String)
    (visited : List String) (color : UsageKind) :
    (∀ (n : Nat) (c : String) (grp : Option String) (v : List String) (g : Graph),
      buildNodes (filterStore s) n c grp v g = buildNodes s n c grp v g)
    ∧ (∀ (n : Nat) (u : String → UsageKind),
        paintAll s root visited color (n + 1) none u = .ok u)
    ∧ (∀ (n : Nat) (c : String) (u : String → UsageKind), c ∉ visited →
        paintAll s root visited color (n + 1) (some c) u = .ok u) := by
  refine ⟨buildNodes_filterStore s, ?_, ?_⟩
  · intro n u
    rw [paintAll]
  · intro n c u hc
    rw [paintAll]
    simp [hc]

/-- A store with one unresolved dependency reference in the default group. -/
def noneDepStore : Store :=
  ⟨fun c => if c = "p" then [("default", [none, some "a"])] else []⟩

theorem unresolved_dependency_skipped_witness :
    buildNodes (filterStore noneDepStore) 3 "p" none ["p"] (Graph.init "p") =
      buildNodes noneDepStore 3 "p" none ["p"] (Graph.init "p")
    ∧ paintAll noneDepStore "p" ["p"] .required 1 (some "z") (initUsage "p") =
      .ok (initUsage "p") :=
  ⟨(unresolved_dependency_skipped noneDepStore "p" ["p"] .required).1 3 "p" none
      ["p"] (Graph.init "p"),
    (unresolved_dependency_skipped noneDepStore "p" ["p"] .required).2.2 0 "z"
      (initUsage "p") (by decide)⟩


/-! ## C3: ComponentInfo equality and hashing -/

/-- Two `ComponentInfo` values sharing a name but differing in version and
in the resolved flag. -/
def compSameNameA : ComponentInfo := .mk "alpha" "1.0.0" .base [] [] [] true none

def compSameNameB : ComponentInfo := .mk "alpha" "2.0.0" .base [] [] [] false none

/-- C3 (counterexample): `ComponentInfo` equality is not determined by name
only: two values with the same name but different versions and resolved
flags are unequal, and their hash keys also differ. -/
theorem componentInfo_eq_not_by_name_only :
    compSameNameA.name = compSameNameB.name
    ∧ compSameNameA ≠ compSameNameB
    ∧ compSameNameA.hashKey ≠ compSameNameB.hashKey := by
  refine ⟨rfl, ?_, ?_⟩
  · intro h
    injection h with h1 h2
    exact absurd h2 (by decide)
  · intro h
    injection h with h1 h2
    exact absurd h2 (by decide)

/-- C3 (amended): the generated `__eq__` of the frozen dataclass
`ComponentInfo` compares the full field tuple — two values are equal exactly
when all eight fields agree — while the generated `__hash__` hashes only the
`hash=True` fields, so two values hash equal exactly when they agree on
`name` and `resolved`. -/
theorem componentInfo_eq_and_hash (a b : ComponentInfo) :
    (a = b ↔ (a.name = b.name ∧ a.resolvedVersion = b.resolvedVersion ∧
      a.license = b.license ∧ a.authors = b.authors ∧
      a.dependencies = b.dependencies ∧ a.files = b.files ∧
      a.resolved = b.resolved ∧ a.homepage = b.homepage))
    ∧ (a.hashKey = b.hashKey ↔ (a.name = b.name ∧ a.resolved = b.resolved)) := by
  cases a with
  | mk n₁ rv₁ l₁ au₁ d₁ f₁ r₁ h₁ =>
    cases b with
    | mk n₂ rv₂ l₂ au₂ d₂ f₂ r₂ h₂ =>
      constructor
      · simp [ComponentInfo.name, ComponentInfo.resolvedVersion,
          ComponentInfo.license, ComponentInfo.authors,
          ComponentInfo.dependencies, ComponentInfo.files,
          ComponentInfo.resolved, ComponentInfo.homepage]
      · simp [ComponentInfo.hashKey, ComponentInfo.name,
          ComponentInfo.resolved, Prod.ext_iff]

/-! ## C4 and C5: self-cycles and missing references in `_resolve` -/

/-- A metadata oracle that finds every package, with a declared license and
no author fields. -/
def oracleAllFound : String → MetaResult :=
  fun n => .found ⟨n, [], [], [], some "MIT"⟩

/-- The raw lock record of a package `alpha` whose only declared dependency
is `alpha` itself. -/
def selfDepRecord : RawRecord := ⟨"alpha", "1.0.0", "", "", [⟨"alpha"⟩], [], []⟩

/-- C4 (code bug): resolving a record whose declared dependency list is
exactly its own name succeeds with an empty resolved dependency list but
emits zero warnings: the guard `len(reference.dependencies) == 0` in
`ComponentBuilder._resolve` can never hold inside the loop over
`reference.dependencies`, so the circular-dependency warning is dead code. -/
theorem resolve_self_cycle_no_warning :
    resolveComponent oracleAllFound (buildPackageMap [selfDepRecord]) 1
        selfDepRecord ⟨[], []⟩ =
      .ok (ComponentInfo.mk "alpha" "1.0.0" .base [] [("default", [])] [] true none,
        ⟨[("alpha",
            ComponentInfo.mk "alpha" "1.0.0" .base [] [("default", [])] [] true none)],
          []⟩) := by
  rfl

/-- The raw lock record of a package `alpha` that declares a dependency on
`beta`, which is absent from the lock. -/
def missingDepRecord : RawRecord := ⟨"alpha", "1.0.0", "", "", [⟨"beta"⟩], [], []⟩

/-- C5 (code bug): a dependency on a name absent from the raw-record map
aborts the whole resolution with a `DependencyTreeError`, but the message
interpolates the missing package's name twice (`package_name` and
`dependency.name` are the same variable) and never names the referencing
package `alpha`. -/
theorem resolve_missing_package_message :
    addFromLockFile oracleAllFound 5 ⟨["default"], [missingDepRecord]⟩ ⟨[], []⟩ =
      .error (.depTree
        "Could not find package beta derived from beta in package map.")
    ∧ ("Could not find package beta derived from beta in package map.".toList.tails.any
        (fun t => "alpha".toList.isPrefixOf t)) = false := by
  constructor
  · rfl
  · decide


/-! ## C6: packages missing from installed metadata -/

/-- C6: when the metadata lookup reports the package as not installed,
`_resolve` does not fail: provided the dependency loop itself completed, it
returns an unresolved placeholder — resolved = false, the undefined-version
sentinel, no authors, an *empty* dependency mapping (the resolved
dependencies are discarded), the record's files preserved — memoizes it, and
logs exactly one additional warning. -/
theorem resolve_not_installed_placeholder (oracle : String → MetaResult)
    (pm : List (String × RawRecord)) (fuel : Nat) (reference : RawRecord)
    (st st' : ResolverState) (ds : List DependencyInfo)
    (hmemo : lookupMemo st.components reference.name = none)
    (hdeps : resolveDeps (resolveComponent oracle pm fuel) pm reference
      reference.dependencies st = .ok (ds, st'))
    (hmeta : oracle reference.name = .notFound) :
    resolveComponent oracle pm (fuel + 1) reference st =
      .ok (ComponentInfo.mk reference.name UNDEFINED_VERSION .base [] []
          reference.files false none,
        { components := st'.components ++
            [(reference.name, ComponentInfo.mk reference.name UNDEFINED_VERSION
                .base [] [] reference.files false none)],
          warnings := st'.warnings ++ [.unresolvedPackage reference.name] }) := by
  rw [resolveComponent, hmemo, hdeps, hmeta]
  rfl

/-- A lock record for a package `gamma` that is absent from the installed
metadata. -/
def notInstalledRecord : RawRecord :=
  ⟨"gamma", "2.0.0", "", "", [], [], [⟨"gamma.whl", "sha256:ab12"⟩]⟩

theorem resolve_not_installed_placeholder_witness :
    resolveComponent (fun _ => .notFound) [] 1 notInstalledRecord ⟨[], []⟩ =
      .ok (ComponentInfo.mk "gamma" UNDEFINED_VERSION .base [] []
          [⟨"gamma.whl", "sha256:ab12"⟩] false none,
        { components := [("gamma", ComponentInfo.mk "gamma" UNDEFINED_VERSION
            .base [] [] [⟨"gamma.whl", "sha256:ab12"⟩] false none)],
          warnings := [.unresolvedPackage "gamma"] }) :=
  resolve_not_installed_placeholder (fun _ => .notFound) [] 0 notInstalledRecord
    ⟨[], []⟩ ⟨[], []⟩ [] rfl rfl rfl

/-! ## C10: artifact files of `ProjectBuilder.build` -/

/-- C10: in `ProjectBuilder.build`, a path that is not a regular file is
silently omitted; the produced list has exactly one `ReferencedFile` per
regular-file path; and its members are exactly the records pairing each
regular file's base name with the hash string `"sha256:" ++ hex digest`. -/
theorem projectBuildFiles_spec (o : PathOracle) :
    (∀ (pre post : List String) (p : String), o.isFile p = false →
      projectBuildFiles o (pre ++ p :: post) = projectBuildFiles o (pre ++ post))
    ∧ (∀ files : List String,
        (projectBuildFiles o files).length = (files.filter o.isFile).length)
    ∧ (∀ (files : List String) (r : ReferencedFile),
        r ∈ projectBuildFiles o files ↔
          ∃ p, p ∈ files ∧ o.isFile p = true ∧
            r = ReferencedFile.mk (o.baseName p) ("sha256:" ++ o.digestHex p)) := by
  refine ⟨?_, ?_, ?_⟩
  · intro pre post p hp
    simp [projectBuildFiles, List.filter_append, List.filter_cons, hp]
  · intro files
    rw [projectBuildFiles, List.length_map]
  · intro files r
    constructor
    · intro hr
      obtain ⟨a, ha, hfa⟩ := List.mem_map.mp hr
      obtain ⟨ha1, ha2⟩ := List.mem_filter.mp ha
      exact ⟨a, ha1, ha2, hfa.symm⟩
    · rintro ⟨p, hp1, hp2, hr⟩
      subst hr
      exact List.mem_map.mpr ⟨p, List.mem_filter.mpr ⟨hp1, hp2⟩, rfl⟩

/-- A concrete filesystem oracle: every path except `"bad"` is a regular
file, digests and base names are identity-like functions. -/
def pathOracle0 : PathOracle :=
  ⟨fun p => decide (p ≠ "bad"), fun p => p ++ "00", fun p => p⟩

theorem projectBuildFiles_spec_witness :
    projectBuildFiles pathOracle0 ["x", "bad", "y"] =
      projectBuildFiles pathOracle0 ["x", "y"] :=
  (projectBuildFiles_spec pathOracle0).1 ["x"] ["y"] "bad" rfl

end PdmSbom
